/-
Verification development for the false-fact-server repository.

The Go analysis pipeline (src/aicall.go) and the TypeScript reference
client (src/reference.ts) are shallowly embedded below: pure Go/TS
functions become Lean functions, the network is abstracted as an
explicit outcome value consumed by exactly the call sites that the Go
code executes, and Go's `error` interface values become an explicit
sum of classified `ExtensionError`s and raw (unclassified) errors.
-/
import Mathlib

deriving instance DecidableEq for Except

namespace FalseFactServer

/-! ## Error taxonomy (src/aicall.go, `AnalysisErrorType` / `ExtensionError`) -/

/-- The four error kinds of the closed taxonomy (src/aicall.go lines 798-805). -/
inductive AnalysisErrorType where
  | rateLimited
  | apiUnavailable
  | invalidContent
  | networkError
deriving DecidableEq, Repr

/-- `ExtensionError` (src/aicall.go lines 807-812): a classified failure record. -/
structure ExtensionError where
  type : AnalysisErrorType
  message : String
  retryable : Bool
  userMessage : String
deriving DecidableEq, Repr

/-- A Go `error` value as surfaced by the pipeline: either a classified
`ExtensionError` or a raw (vendor/transport/parsing) error carrying only
its message. -/
inductive GoError where
  | ext (e : ExtensionError)
  | raw (msg : String)
deriving DecidableEq, Repr

/-- `handleHttpStatusError` (src/aicall.go lines 818-863): pure mapping from an
HTTP status code (and a fallback message) to a classified error. The Go
function returns `error`; its body always returns an `*ExtensionError`, which
we return directly. -/
def handleHttpStatusError (status : Int) (message : String) : ExtensionError :=
  if status = 429 then
    ⟨.rateLimited, "API rate limit exceeded", true,
      "Please wait a moment before trying again"⟩
  else if 500 ≤ status then
    ⟨.apiUnavailable, "Analysis service is temporarily unavailable", true,
      "Please try again in a few minutes"⟩
  else if status = 404 then
    ⟨.apiUnavailable, "API endpoint not found (404)", false,
      "Using fallback analysis method"⟩
  else if status = 400 then
    ⟨.invalidContent, "Invalid request format or content", false,
      "Please try with different content or check your input"⟩
  else if 400 ≤ status ∧ status < 500 then
    ⟨.apiUnavailable, "API request failed with status " ++ toString status, false,
      "Please check your request and try again"⟩
  else
    ⟨.networkError, message, true,
      "Please check your internet connection and try again"⟩

/-! ## JSON values and a parser modelling Go's `encoding/json` syntax

`Json` models the values `encoding/json` produces for `interface{}`
targets: `null`, booleans, numbers, strings, arrays and objects (field
lists in source order; a later duplicate key overwrites an earlier one,
as in Go). Numeric literals are modelled as integers: every numeric
field of the decoded structs has Go type `int`, and both a syntactically
non-integer numeral and a float-into-int decode failure flow through the
single `json.Unmarshal` error branch of the callers, so folding them
into parse failure is observationally equivalent. -/
inductive Json where
  | null
  | bool (b : Bool)
  | num (n : Int)
  | str (s : String)
  | arr (elems : List Json)
  | obj (fields : List (String × Json))
deriving Repr

/-- JSON insignificant whitespace. -/
def jsonWs (c : Char) : Bool :=
  c = ' ' || c = '\t' || c = '\n' || c = '\r'

/-- Value of a hexadecimal digit, if any. -/
def hexVal (c : Char) : Option Nat :=
  if '0' ≤ c ∧ c ≤ '9' then some (c.toNat - 48)
  else if 'a' ≤ c ∧ c ≤ 'f' then some (c.toNat - 87)
  else if 'A' ≤ c ∧ c ≤ 'F' then some (c.toNat - 55)
  else none

/-- Parse the body of a JSON string (the opening quote already consumed),
returning the decoded characters and the remaining input. Handles the
standard escapes and non-surrogate `\uXXXX` escapes. Fuel-based; callers
supply fuel at least the input length plus one. -/
def parseStringBody : Nat → List Char → Option (List Char × List Char)
  | 0, _ => none
  | _ + 1, [] => none
  | _ + 1, '"' :: rest => some ([], rest)
  | fuel + 1, '\\' :: rest =>
    (match rest with
      | [] => none
      | e :: rest₂ =>
        (match e with
          | '"' => some ('"', rest₂)
          | '\\' => some ('\\', rest₂)
          | '/' => some ('/', rest₂)
          | 'n' => some ('\n', rest₂)
          | 't' => some ('\t', rest₂)
          | 'r' => some ('\r', rest₂)
          | 'b' => some (Char.ofNat 8, rest₂)
          | 'f' => some (Char.ofNat 12, rest₂)
          | 'u' =>
            (match rest₂ with
              | h1 :: h2 :: h3 :: h4 :: rest₃ =>
                (match hexVal h1, hexVal h2, hexVal h3, hexVal h4 with
                  | some d1, some d2, some d3, some d4 =>
                    some (Char.ofNat (((d1 * 16 + d2) * 16 + d3) * 16 + d4), rest₃)
                  | _, _, _, _ => none)
              | _ => none)
          | _ => none)).bind
      (fun (cr : Char × List Char) =>
        (parseStringBody fuel cr.2).map
          (fun (sr : List Char × List Char) => (cr.1 :: sr.1, sr.2)))
  | fuel + 1, c :: rest =>
    (parseStringBody fuel rest).map
      (fun (sr : List Char × List Char) => (c :: sr.1, sr.2))

/-- Parse a JSON number (integer form; a following `.`/`e`/`E`, or a leading
zero, is rejected — see the note on `Json.num`). -/
def parseNumber (cs : List Char) : Option (Json × List Char) :=
  let (neg, cs₁) :=
    match cs with
    | '-' :: r => (true, r)
    | _ => (false, cs)
  let digits := cs₁.takeWhile Char.isDigit
  let rest := cs₁.dropWhile Char.isDigit
  if digits.isEmpty then none
  else if 1 < digits.length ∧ digits.head? = some '0' then none
  else
    match rest with
    | '.' :: _ => none
    | 'e' :: _ => none
    | 'E' :: _ => none
    | _ =>
      let n : Int := digits.foldl (fun a c => a * 10 + (c.toNat - 48 : Int)) 0
      some (.num (if neg then -n else n), rest)

mutual

/-- Parse one JSON value (fuel-based). -/
def parseValue : Nat → List Char → Option (Json × List Char)
  | 0, _ => none
  | fuel + 1, cs₀ =>
    let cs := cs₀.dropWhile jsonWs
    match cs with
    | 'n' :: 'u' :: 'l' :: 'l' :: rest => some (.null, rest)
    | 't' :: 'r' :: 'u' :: 'e' :: rest => some (.bool true, rest)
    | 'f' :: 'a' :: 'l' :: 's' :: 'e' :: rest => some (.bool false, rest)
    | '"' :: rest =>
      (parseStringBody (rest.length + 1) rest).map (fun sr => (.str (String.mk sr.1), sr.2))
    | '[' :: rest =>
      (match rest.dropWhile jsonWs with
        | ']' :: r₂ => some (.arr [], r₂)
        | r₁ => (parseItems fuel r₁).map (fun er => (.arr er.1, er.2)))
    | '{' :: rest =>
      (match rest.dropWhile jsonWs with
        | '}' :: r₂ => some (.obj [], r₂)
        | r₁ => (parseMembers fuel r₁).map (fun fr => (.obj fr.1, fr.2)))
    | _ => parseNumber cs

/-- Parse the comma-separated items of a non-empty JSON array, up to and
including the closing bracket. -/
def parseItems : Nat → List Char → Option (List Json × List Char)
  | 0, _ => none
  | fuel + 1, cs => do
    let (v, r) ← parseValue fuel cs
    match r.dropWhile jsonWs with
    | ']' :: r₂ => some ([v], r₂)
    | ',' :: r₂ => (parseItems fuel r₂).map (fun er => (v :: er.1, er.2))
    | _ => none

/-- Parse the members of a non-empty JSON object, up to and including the
closing brace. -/
def parseMembers : Nat → List Char → Option (List (String × Json) × List Char)
  | 0, _ => none
  | fuel + 1, cs =>
    match cs.dropWhile jsonWs with
    | '"' :: rest => do
      let (k, r₁) ← parseStringBody (rest.length + 1) rest
      match r₁.dropWhile jsonWs with
      | ':' :: r₃ => do
        let (v, r₄) ← parseValue fuel r₃
        (match r₄.dropWhile jsonWs with
          | '}' :: r₆ => some ([(String.mk k, v)], r₆)
          | ',' :: r₆ => (parseMembers fuel r₆).map (fun fr => ((String.mk k, v) :: fr.1, fr.2))
          | _ => none)
      | _ => none
    | _ => none

end

/-- Parse a complete JSON document, as `json.Unmarshal` does syntactically:
one value, optionally surrounded by whitespace, with nothing after it. -/
def jsonOfString (s : String) : Option Json :=
  match parseValue (2 * s.data.length + 8) s.data with
  | some (j, rest) => if (rest.dropWhile jsonWs).isEmpty then some j else none
  | none => none

/-! ## Response structures (src/aicall.go lines 225-255)

Go slice fields of type `[]string` that the code never compares with
`nil` are modelled as `List String` (for them, `nil` and the empty slice
are indistinguishable here: only `len` is consulted). `Sources []string`
is compared with `nil`, so it is modelled as `Option (List String)`
(`none` = `nil`). Pointer fields `*[]string` are likewise `Option`. -/

/-- `Reasoning` (src/aicall.go lines 225-230). -/
structure Reasoning where
  factual : List String
  unfactual : List String
  subjective : List String
  objective : List String
deriving DecidableEq, Repr

/-- `Analysis` (src/aicall.go lines 232-236). The Go field `False` (JSON key
`"false"`) is called `falseKey` here. -/
structure Analysis where
  fact : Option (List String)
  falseKey : Option (List String)
  opinion : Option (List String)
deriving DecidableEq, Repr

/-- `Categories` (src/aicall.go lines 238-241). -/
structure Categories where
  factuality : Int
  objectivity : Int
deriving DecidableEq, Repr

/-- `AnalysisResponse` (src/aicall.go lines 243-249). -/
structure AnalysisResponse where
  reasoning : Reasoning
  credibilityScore : Int
  categories : Categories
  confidence : Int
  sources : Option (List String)
deriving DecidableEq, Repr

/-- `ShortAnalysisResponse` (src/aicall.go lines 251-255). -/
structure ShortAnalysisResponse where
  analysis : Analysis
  confidence : Int
  sources : Option (List String)
deriving DecidableEq, Repr

/-- The zero value of `Reasoning`. -/
def zeroReasoning : Reasoning := ⟨[], [], [], []⟩

/-- The zero value of `AnalysisResponse` (what `var parsed AnalysisResponse`
starts from before `json.Unmarshal` fills fields in). -/
def zeroAnalysisResponse : AnalysisResponse := ⟨zeroReasoning, 0, ⟨0, 0⟩, 0, none⟩

/-- The zero value of `ShortAnalysisResponse`. -/
def zeroShortAnalysisResponse : ShortAnalysisResponse := ⟨⟨none, none, none⟩, 0, none⟩

/-! ## Struct decoding, modelling Go's `encoding/json` semantics

Per `encoding/json`: a JSON `null` leaves a non-pointer target unchanged
and sets a pointer target to `nil`; a type mismatch is an error; object
keys with no struct field are ignored; a duplicate key decodes again
over the earlier value (later wins). Key matching is modelled as exact;
Go additionally accepts a case-insensitive fallback, which no caller of
this pipeline relies on. -/

/-- Decode one element of a `[]string` target: a string, or `null` (which
leaves the appended zero-value `""` element unchanged). -/
def decStrElem (j : Json) : Option String :=
  match j with
  | .str s => some s
  | .null => some ""
  | _ => none

/-- Decode into an `int` field holding `cur`. -/
def decIntField (j : Json) (cur : Int) : Option Int :=
  match j with
  | .num n => some n
  | .null => some cur
  | _ => none

/-- Decode into a `[]string` field holding `cur` (no `nil` distinction needed). -/
def decStrListField (j : Json) (cur : List String) : Option (List String) :=
  match j with
  | .null => some cur
  | .arr es => es.mapM decStrElem
  | _ => none

/-- Decode into the `Sources []string` field (`nil`-aware): `null` leaves the
slice as is. -/
def decSourcesField (j : Json) (cur : Option (List String)) : Option (Option (List String)) :=
  match j with
  | .null => some cur
  | .arr es => (es.mapM decStrElem).map some
  | _ => none

/-- Decode into a `*[]string` field: `null` sets the pointer to `nil`. -/
def decPtrStrList (j : Json) : Option (Option (List String)) :=
  match j with
  | .null => some none
  | .arr es => (es.mapM decStrElem).map some
  | _ => none

/-- Decode into the nested `Reasoning` struct holding `cur`. -/
def decReasoning (j : Json) (cur : Reasoning) : Option Reasoning :=
  match j with
  | .null => some cur
  | .obj fs =>
    fs.foldlM
      (fun (st : Reasoning) kv =>
        match kv.1 with
        | "factual" => (decStrListField kv.2 st.factual).map (fun l => { st with factual := l })
        | "unfactual" => (decStrListField kv.2 st.unfactual).map (fun l => { st with unfactual := l })
        | "subjective" => (decStrListField kv.2 st.subjective).map (fun l => { st with subjective := l })
        | "objective" => (decStrListField kv.2 st.objective).map (fun l => { st with objective := l })
        | _ => some st)
      cur
  | _ => none

/-- Decode into the nested `Categories` struct holding `cur`. -/
def decCategories (j : Json) (cur : Categories) : Option Categories :=
  match j with
  | .null => some cur
  | .obj fs =>
    fs.foldlM
      (fun (st : Categories) kv =>
        match kv.1 with
        | "factuality" => (decIntField kv.2 st.factuality).map (fun n => { st with factuality := n })
        | "objectivity" => (decIntField kv.2 st.objectivity).map (fun n => { st with objectivity := n })
        | _ => some st)
      cur
  | _ => none

/-- Decode into the nested `Analysis` struct holding `cur`. The struct has no
field for the prompt's `"none"` key, so that key is ignored, like any other
unknown key. -/
def decAnalysisStruct (j : Json) (cur : Analysis) : Option Analysis :=
  match j with
  | .null => some cur
  | .obj fs =>
    fs.foldlM
      (fun (st : Analysis) kv =>
        match kv.1 with
        | "fact" => (decPtrStrList kv.2).map (fun l => { st with fact := l })
        | "false" => (decPtrStrList kv.2).map (fun l => { st with falseKey := l })
        | "opinion" => (decPtrStrList kv.2).map (fun l => { st with opinion := l })
        | _ => some st)
      cur
  | _ => none

/-- `json.Unmarshal` of a parsed value into `AnalysisResponse`: `null` is a
no-op on the zero value; only an object decodes; anything else is an error. -/
def decodeAnalysisResponse (j : Json) : Option AnalysisResponse :=
  match j with
  | .null => some zeroAnalysisResponse
  | .obj fs =>
    fs.foldlM
      (fun (st : AnalysisResponse) kv =>
        match kv.1 with
        | "reasoning" => (decReasoning kv.2 st.reasoning).map (fun x => { st with reasoning := x })
        | "credibilityScore" =>
          (decIntField kv.2 st.credibilityScore).map (fun x => { st with credibilityScore := x })
        | "categories" => (decCategories kv.2 st.categories).map (fun x => { st with categories := x })
        | "confidence" => (decIntField kv.2 st.confidence).map (fun x => { st with confidence := x })
        | "sources" => (decSourcesField kv.2 st.sources).map (fun x => { st with sources := x })
        | _ => some st)
      zeroAnalysisResponse
  | _ => none

/-- `json.Unmarshal` of a parsed value into `ShortAnalysisResponse`. -/
def decodeShortAnalysisResponse (j : Json) : Option ShortAnalysisResponse :=
  match j with
  | .null => some zeroShortAnalysisResponse
  | .obj fs =>
    fs.foldlM
      (fun (st : ShortAnalysisResponse) kv =>
        match kv.1 with
        | "analysis" => (decAnalysisStruct kv.2 st.analysis).map (fun x => { st with analysis := x })
        | "confidence" => (decIntField kv.2 st.confidence).map (fun x => { st with confidence := x })
        | "sources" => (decSourcesField kv.2 st.sources).map (fun x => { st with sources := x })
        | _ => some st)
      zeroShortAnalysisResponse
  | _ => none

/-! ## Response extraction (src/aicall.go lines 651-665 and 734-748) -/

/-- The whitespace set of Go's `bytes.TrimSpace` (`unicode.IsSpace`),
restricted to its Latin-1 members; the rarer Unicode space characters do not
occur in any input considered here. -/
def goIsSpace (c : Char) : Bool :=
  c = ' ' || c = '\t' || c = '\n' || c = '\x0b' || c = '\x0c' || c = '\r' ||
  c = '\x85' || c = '\xa0'

/-- `bytes.TrimSpace` on a character list. -/
def trimSpace (cs : List Char) : List Char :=
  ((cs.dropWhile goIsSpace).reverse.dropWhile goIsSpace).reverse

/-- The match of the Go regular expression for a brace-delimited block against
`cs` (already trimmed), substituted for `cs` when it exists. The pattern is
greedy, so the match runs from the first opening brace to the last closing
brace of the whole input (provided that closing brace comes later); with no
match, `FindString` returns `""` and the code keeps `cs`. -/
def goJsonExtractCore (cs : List Char) : List Char :=
  match cs.dropWhile (fun c => c ≠ '{') with
  | [] => cs
  | b :: tl =>
    let kept := (tl.reverse.dropWhile (fun c => c ≠ '}')).reverse
    if kept.isEmpty then cs else b :: kept

/-- The extraction step shared by `parseAnalysisResponse` and
`parseShortAnalysisResponse`: trim whitespace, then substitute the regex
match when one exists. -/
def extractJsonObject (s : String) : String :=
  String.mk (goJsonExtractCore (trimSpace s.data))

/-- Modelled from the spec (§4.2 ResponseExtractor): scan from the first
opening brace to its matching closing brace with a balanced counter,
producing the matched object, or nothing when no balanced object exists.
Stated only to compare the source's extraction against the spec's words. -/
def balancedTake : Nat → List Char → List Char → Option (List Char)
  | _, _, [] => none
  | depth, acc, c :: rest =>
    if c = '{' then balancedTake (depth + 1) (c :: acc) rest
    else if c = '}' then
      if depth = 1 then some (c :: acc).reverse
      else balancedTake (depth - 1) (c :: acc) rest
    else balancedTake depth (c :: acc) rest

/-- Modelled from the spec (§4.2 ResponseExtractor): trim, then take the
balanced outermost-brace match starting at the first opening brace. -/
def specBalancedExtract (s : String) : Option String :=
  match (trimSpace s.data).dropWhile (fun c => c ≠ '{') with
  | [] => none
  | b :: tl => (balancedTake 1 [b] tl).map String.mk

/-! ## Parsing and validation (src/aicall.go lines 651-732 and 734-796) -/

/-- The error built when `json.Unmarshal` fails in either parse function. -/
def invalidParseErr : ExtensionError :=
  ⟨.invalidContent, "Failed to parse analysis response", true,
    "Try analyzing the content again"⟩

/-- The source-normalization filter (`len(s) > 0` keeps an entry). -/
def filterSources (l : List String) : List String :=
  l.filter (fun s => 0 < s.length)

/-- Extraction followed by `json.Unmarshal` into `AnalysisResponse`
(src/aicall.go lines 655-668). -/
def decodedAnalysis (content : String) : Option AnalysisResponse :=
  (jsonOfString (extractJsonObject content)).bind decodeAnalysisResponse

/-- Extraction followed by `json.Unmarshal` into `ShortAnalysisResponse`
(src/aicall.go lines 738-751). -/
def decodedShort (content : String) : Option ShortAnalysisResponse :=
  (jsonOfString (extractJsonObject content)).bind decodeShortAnalysisResponse

/-- `parseAnalysisResponse` (src/aicall.go lines 651-732): extract, decode,
then run the degeneracy check, the three range checks, and source
normalization, in source order. -/
def parseAnalysisResponse (content : String) : Except ExtensionError AnalysisResponse :=
  match decodedAnalysis content with
  | none => .error invalidParseErr
  | some parsed =>
    if parsed.credibilityScore = 0 ∧ parsed.categories.factuality = 0 ∧
        parsed.categories.objectivity = 0 ∧ parsed.confidence = 0 ∧
        parsed.reasoning.factual.length = 0 ∧ parsed.reasoning.unfactual.length = 0 ∧
        parsed.reasoning.subjective.length = 0 ∧ parsed.reasoning.objective.length = 0 then
      .error ⟨.invalidContent, "Invalid response format from analysis service", true,
        "Try analyzing the content again"⟩
    else if parsed.credibilityScore < 0 ∨ 100 < parsed.credibilityScore then
      .error ⟨.invalidContent, "Invalid credibility score in response", true,
        "Try analyzing the content again"⟩
    else if parsed.confidence < 0 ∨ 100 < parsed.confidence then
      .error ⟨.invalidContent, "Invalid confidence score in response", true,
        "Try analyzing the content again"⟩
    else if parsed.categories.factuality < 0 ∨ 100 < parsed.categories.factuality ∨
        parsed.categories.objectivity < 0 ∨ 100 < parsed.categories.objectivity then
      .error ⟨.invalidContent, "Category values out of range", true,
        "Try analyzing the content again"⟩
    else
      .ok { parsed with sources := some (filterSources (parsed.sources.getD [])) }

/-- `parseShortAnalysisResponse` (src/aicall.go lines 734-796): extract,
decode, then the confidence range check, the exclusivity check on
`{fact, false, opinion}`, and source normalization, in source order. -/
def parseShortAnalysisResponse (content : String) :
    Except ExtensionError ShortAnalysisResponse :=
  match decodedShort content with
  | none => .error invalidParseErr
  | some parsed =>
    if parsed.confidence < 0 ∨ 100 < parsed.confidence then
      .error ⟨.invalidContent, "Invalid confidence score in response", true,
        "Try analyzing the content again"⟩
    else if (parsed.analysis.fact ≠ none ∧ parsed.analysis.falseKey ≠ none) ∨
        (parsed.analysis.fact ≠ none ∧ parsed.analysis.opinion ≠ none) ∨
        (parsed.analysis.falseKey ≠ none ∧ parsed.analysis.opinion ≠ none) then
      .error ⟨.invalidContent, "Multiple analysis conclusions", true,
        "Try analyzing the content again"⟩
    else
      .ok { parsed with sources := some (filterSources (parsed.sources.getD [])) }

/-! ## Provider clients (src/aicall.go lines 516-581 and 583-649)

One invocation of either client performs at most one network round trip,
whose behaviour is supplied as an explicit outcome value. -/

/-- The behaviour of the one Gemini round trip: client construction fails,
the generation request fails, or a result arrives (`none` models a nil
result, read as empty text). -/
inductive GeminiOutcome where
  | clientInitError (msg : String)
  | requestError (msg : String)
  | success (text : Option String)
deriving DecidableEq, Repr

/-- The decoded body of a 2xx Pollinations HTTP response: reading the body
failed, the body is not a JSON object (so `json.Unmarshal` into
`map[string]interface{}` fails with a raw error), or it is a JSON object
with the given fields. -/
inductive BodyContent where
  | readFailure (msg : String)
  | malformed (msg : String)
  | json (fields : List (String × Json))
deriving Repr

/-- The behaviour of the one Pollinations HTTP round trip: `client.Do`
fails in transport, or a response with a status code and body arrives. -/
inductive HttpOutcome where
  | transportError (msg : String)
  | response (status : Int) (body : BodyContent)
deriving Repr

/-- `geminiApiCall` (src/aicall.go lines 516-581). Every failure path
constructs an `ExtensionError`. -/
def geminiApiCall (apiKey : String) (_prompt : String) (out : GeminiOutcome) :
    Except GoError String :=
  if apiKey.length = 0 then
    .error (.ext ⟨.apiUnavailable, "Gemini API key is missing", false,
      "Please set GEMINI_API_KEY in your environment"⟩)
  else
    match out with
    | .clientInitError m =>
      .error (.ext ⟨.apiUnavailable, "Failed to initialize Gemini client: " ++ m, true, m⟩)
    | .requestError m =>
      .error (.ext ⟨.apiUnavailable, "Gemini API request failed: " ++ m, true, m⟩)
    | .success t => .ok (t.getD "")

/-- Number of network round trips `geminiApiCall` performs: none when the key
is missing or the client cannot be constructed, one otherwise. -/
def geminiNetworkCalls (apiKey : String) (out : GeminiOutcome) : Nat :=
  if apiKey.length = 0 then 0
  else
    match out with
    | .clientInitError _ => 0
    | _ => 1

/-- Go-map lookup on decoded JSON object fields (a duplicate key was
overwritten by the later occurrence during `json.Unmarshal`). -/
def lookupLast (fs : List (String × Json)) (k : String) : Option Json :=
  fs.foldl (fun acc kv => if kv.1 = k then some kv.2 else acc) none

/-- The `choices[0].message.content` extraction of `pollinationsApiCall`
(src/aicall.go lines 634-646): any failed type assertion leaves `content`
at `""`. -/
def extractChoicesContent (fs : List (String × Json)) : String :=
  match lookupLast fs "choices" with
  | some (.arr (c₀ :: _)) =>
    match c₀ with
    | .obj cf =>
      match lookupLast cf "message" with
      | some (.obj mf) =>
        match lookupLast mf "content" with
        | some (.str s) => s
        | _ => ""
      | _ => ""
    | _ => ""
  | _ => ""

/-- `pollinationsApiCall` (src/aicall.go lines 583-649). The
`json.Marshal`/`http.NewRequest` error branches are omitted: the payload is
a fixed map of strings and the URL a fixed literal, so neither can fail.
Transport (`client.Do`), body-read (`io.ReadAll`) and body-decode
(`json.Unmarshal`) failures are returned raw; a non-2xx status is classified
through `handleHttpStatusError` before the body is read. -/
def pollinationsApiCall (_systemPrompt _userPrompt : String) (out : HttpOutcome) :
    Except GoError String :=
  match out with
  | .transportError m => .error (.raw m)
  | .response status body =>
    if status < 200 ∨ 300 ≤ status then
      .error (.ext (handleHttpStatusError status
        ("POST request failed with status " ++ toString status)))
    else
      match body with
      | .readFailure m => .error (.raw m)
      | .malformed m => .error (.raw m)
      | .json fs => .ok (extractChoicesContent fs)

/-! ## Analysis entry points (src/aicall.go lines 258-357, 359-445, 447-514)

`Model` is a Go `int` with constants `Gemini = 0` and `Pollinations = 1`.
The long system-prompt literals are opaque templates here (spec §1 places
their wording out of scope); the short user-prompt templates are kept
verbatim since they carry the content/title parameters. Each entry point
returns the Go result together with the number of provider network round
trips it performed. -/

abbrev Model := Int

/-- The `Gemini` constant of the `Model` enumeration. -/
def Gemini : Model := 0

/-- The `Pollinations` constant of the `Model` enumeration. -/
def Pollinations : Model := 1

/-- Opaque stand-in for the article system-prompt literal (src/aicall.go
lines 259-328); no property below depends on its wording. -/
def articleSystemPrompt : String :=
  "You are an expert fact-checker and content analyst [...]"

/-- Opaque stand-in for the long-text system-prompt literal (src/aicall.go
lines 360-420). -/
def textLongSystemPrompt : String :=
  "You are an expert fact-checker and content analyst [...]"

/-- Opaque stand-in for the short-text system-prompt literal (src/aicall.go
lines 448-488). -/
def textShortSystemPrompt : String :=
  "You are an expert fact-checker and content analyst [...]"

/-- The article user prompt (src/aicall.go lines 330-341), verbatim. -/
def articleUserPrompt (title content : String) : String :=
  "\nAnalyze the given article for credibility and factuality.\n\nHEADLINE: \"" ++
  title ++ "\"\n\nARTICLE TEXT:\n\"\"\"\n" ++ content ++
  "\n\"\"\"\n\nYour response must be in the format specified.\n"

/-- The text user prompt shared by the long and short variants
(src/aicall.go lines 422-431 and 490-499), verbatim. -/
def textUserPrompt (content : String) : String :=
  "\nAnalyze the given text for credibility and factuality.\n\nTEXT:\n\"\"\"\n" ++
  content ++ "\n\"\"\"\n\nYour response must be in the format specified.\n"

/-- Lift a parse result into the Go error sum. -/
def liftParse {α : Type} : Except ExtensionError α → Except GoError α
  | .ok a => .ok a
  | .error e => .error (.ext e)

/-- `AiAnalyzeArticle` (src/aicall.go lines 258-357). `url` and `lastEdited`
are accepted and ignored, as in the source. -/
def AiAnalyzeArticle (content title _url : String) (_lastEdited : Int) (model : Model)
    (geminiKey : String) (gOut : GeminiOutcome) (pOut : HttpOutcome) :
    Except GoError AnalysisResponse × Nat :=
  let userPrompt := articleUserPrompt title content
  if model = Gemini then
    ((geminiApiCall geminiKey (articleSystemPrompt ++ "\n\n\n" ++ userPrompt) gOut).bind
        (fun response => liftParse (parseAnalysisResponse response)),
      geminiNetworkCalls geminiKey gOut)
  else if model = Pollinations then
    ((pollinationsApiCall articleSystemPrompt userPrompt pOut).bind
        (fun response => liftParse (parseAnalysisResponse response)), 1)
  else
    (.error (.raw (toString model ++ " is not a recognized model")), 0)

/-- `AiAnalyzeTextLong` (src/aicall.go lines 359-445). -/
def AiAnalyzeTextLong (content : String) (model : Model)
    (geminiKey : String) (gOut : GeminiOutcome) (pOut : HttpOutcome) :
    Except GoError AnalysisResponse × Nat :=
  let userPrompt := textUserPrompt content
  if model = Gemini then
    ((geminiApiCall geminiKey (textLongSystemPrompt ++ "\n\n\n" ++ userPrompt) gOut).bind
        (fun response => liftParse (parseAnalysisResponse response)),
      geminiNetworkCalls geminiKey gOut)
  else if model = Pollinations then
    ((pollinationsApiCall textLongSystemPrompt userPrompt pOut).bind
        (fun response => liftParse (parseAnalysisResponse response)), 1)
  else
    (.error (.raw (toString model ++ " is not a recognized model")), 0)

/-- `AiAnalyzeTextShort` (src/aicall.go lines 447-514). -/
def AiAnalyzeTextShort (content : String) (model : Model)
    (geminiKey : String) (gOut : GeminiOutcome) (pOut : HttpOutcome) :
    Except GoError ShortAnalysisResponse × Nat :=
  let userPrompt := textUserPrompt content
  if model = Gemini then
    ((geminiApiCall geminiKey (textShortSystemPrompt ++ "\n\n\n" ++ userPrompt) gOut).bind
        (fun response => liftParse (parseShortAnalysisResponse response)),
      geminiNetworkCalls geminiKey gOut)
  else if model = Pollinations then
    ((pollinationsApiCall textShortSystemPrompt userPrompt pOut).bind
        (fun response => liftParse (parseShortAnalysisResponse response)), 1)
  else
    (.error (.raw (toString model ++ " is not a recognized model")), 0)

/-! ## TypeScript reference client (src/reference.ts)

`PollinationsService.analyzeText` (lines 35-173) validates its input
before any network activity; everything from the retry loop on is
abstracted as a continuation `rest` that reports its own provider-call
count. `sanitizeText` and the truncation helper live in the repository's
`utils` module, which is not under src/, so they are taken as opaque
function parameters. -/

/-- `PollinationsService.analyzeText`, entry validation and content shaping
(src/reference.ts lines 35-78): blank content and sanitized content shorter
than 50 characters are rejected with a non-retryable `INVALID_CONTENT`
error before any network call; content longer than 5000 characters is
truncated to 4000 before submission. -/
def analyzeText {α : Type} (text : String) (sanitize : String → String)
    (truncate : String → Nat → String)
    (rest : String → Except ExtensionError α × Nat) :
    Except ExtensionError α × Nat :=
  if (trimSpace text.data).isEmpty then
    (.error ⟨.invalidContent, "Text content cannot be empty", false,
      "Please provide valid content to analyze"⟩, 0)
  else
    let sanitizedText := sanitize text
    if sanitizedText.length < 50 then
      (.error ⟨.invalidContent, "Text content is too short for analysis", false,
        "Please provide at least 50 characters of content"⟩, 0)
    else
      let processedText :=
        if 5000 < sanitizedText.length then truncate sanitizedText 4000 else sanitizedText
      rest processedText

/-! ## Content hash stamping (src/reference.ts lines 499-529)

`createAnalysisResult` stamps `contentHash: generateContentHash(content,
resultUrl)` with `resultUrl = url || "unknown"`. -/

/-- Injective numeric code of a string. -/
def encodeString (s : String) : ℕ :=
  Encodable.encode (s.data.map Char.toNat)

/-- Modelled from the spec: `generateContentHash` is imported from the
repository's `utils` module, which is not under src/; per spec §3 it is "a
deterministic fingerprint of normalized content plus URL". Modelled as an
injective pairing of the two strings. -/
def generateContentHash (content url : String) : ℕ :=
  Nat.pair (encodeString content) (encodeString url)

/-- `url || "unknown"` (src/reference.ts line 506): in JavaScript both an
absent `url` and the empty string are falsy and default to `"unknown"`. -/
def resolveUrl (url : Option String) : String :=
  match url with
  | none => "unknown"
  | some u => if u = "" then "unknown" else u

/-- The content hash `createAnalysisResult` stamps onto a successful result
(src/reference.ts lines 499-529). -/
def stampedContentHash (content : String) (url : Option String) : ℕ :=
  generateContentHash content (resolveUrl url)

/-! ## Shared helper notions for the theorems -/

/-- The result rejects its input with a retryable `InvalidContent` error
carrying the shared validation user message. -/
def rejectsRetryableInvalid {α : Type} : Except ExtensionError α → Prop
  | .error e =>
    e.type = .invalidContent ∧ e.retryable = true ∧
    e.userMessage = "Try analyzing the content again"
  | .ok _ => False

lemma rejectsRetryableInvalid_error {α : Type} (m u : String)
    (hu : u = "Try analyzing the content again") :
    rejectsRetryableInvalid (α := α)
      (.error ⟨.invalidContent, m, true, u⟩) := by
  exact ⟨rfl, rfl, hu⟩

lemma string_ne_empty_of_length_pos {s : String} (h : 0 < s.length) : s ≠ "" := by
  intro hs
  subst hs
  simp [String.length] at h

lemma dropWhile_append_of_forall {α : Type} {p : α → Bool} {l₁ l₂ : List α}
    (h : ∀ a ∈ l₁, p a = true) :
    (l₁ ++ l₂).dropWhile p = l₂.dropWhile p := by
  induction l₁ with
  | nil => simp
  | cons a t ih =>
    simp only [List.cons_append, List.dropWhile_cons, h a (by simp)]
    exact ih (fun x hx => h x (by simp [hx]))

/-! ## C4: HTTP status classification -/

/-- C4: `handleHttpStatusError` is a pure deterministic mapping into the
closed taxonomy: 429 yields `RateLimited` retryable; every status ≥ 500
yields `ApiUnavailable` retryable; 404 yields `ApiUnavailable`
non-retryable; 400 yields `InvalidContent` non-retryable; every other 4xx
yields `ApiUnavailable` non-retryable; anything unclassified (below 400)
yields `NetworkError` retryable. -/
theorem c4_http_status_classification (status : Int) (message : String) :
    (status = 429 →
      (handleHttpStatusError status message).type = .rateLimited ∧
      (handleHttpStatusError status message).retryable = true) ∧
    (500 ≤ status →
      (handleHttpStatusError status message).type = .apiUnavailable ∧
      (handleHttpStatusError status message).retryable = true) ∧
    (status = 404 →
      (handleHttpStatusError status message).type = .apiUnavailable ∧
      (handleHttpStatusError status message).retryable = false) ∧
    (status = 400 →
      (handleHttpStatusError status message).type = .invalidContent ∧
      (handleHttpStatusError status message).retryable = false) ∧
    (400 ≤ status → status < 500 → status ≠ 429 → status ≠ 404 → status ≠ 400 →
      (handleHttpStatusError status message).type = .apiUnavailable ∧
      (handleHttpStatusError status message).retryable = false) ∧
    (status < 400 →
      (handleHttpStatusError status message).type = .networkError ∧
      (handleHttpStatusError status message).retryable = true) := by
  refine ⟨?_, ?_, ?_, ?_, ?_, ?_⟩ <;>
    (intros
     simp only [handleHttpStatusError]
     split_ifs <;> first | exact ⟨rfl, rfl⟩ | omega)

/-- Witness for C4 at representative statuses. -/
theorem c4_witness :
    (handleHttpStatusError 429 "m").type = .rateLimited ∧
    (handleHttpStatusError 429 "m").retryable = true ∧
    (handleHttpStatusError 503 "m").type = .apiUnavailable ∧
    (handleHttpStatusError 503 "m").retryable = true ∧
    (handleHttpStatusError 404 "m").type = .apiUnavailable ∧
    (handleHttpStatusError 404 "m").retryable = false ∧
    (handleHttpStatusError 400 "m").type = .invalidContent ∧
    (handleHttpStatusError 400 "m").retryable = false ∧
    (handleHttpStatusError 403 "m").type = .apiUnavailable ∧
    (handleHttpStatusError 403 "m").retryable = false ∧
    (handleHttpStatusError 301 "m").type = .networkError ∧
    (handleHttpStatusError 301 "m").retryable = true := by
  have h429 := (c4_http_status_classification 429 "m").1 rfl
  have h503 := (c4_http_status_classification 503 "m").2.1 (by norm_num)
  have h404 := (c4_http_status_classification 404 "m").2.2.1 rfl
  have h400 := (c4_http_status_classification 400 "m").2.2.2.1 rfl
  have h403 := (c4_http_status_classification 403 "m").2.2.2.2.1
    (by norm_num) (by norm_num) (by norm_num) (by norm_num) (by norm_num)
  have h301 := (c4_http_status_classification 301 "m").2.2.2.2.2 (by norm_num)
  exact ⟨h429.1, h429.2, h503.1, h503.2, h404.1, h404.2, h400.1, h400.2,
    h403.1, h403.2, h301.1, h301.2⟩

/-! ## C5: range validation -/

/-- C5: for every decoded article/long-text response, any of
`credibilityScore`, `confidence`, `categories.factuality`,
`categories.objectivity` outside `[0,100]` makes `parseAnalysisResponse`
reject with a retryable `InvalidContent` error; conversely every accepted
response has all four values in `[0,100]`. -/
theorem c5_range_validation :
    (∀ (content : String) (p : AnalysisResponse), decodedAnalysis content = some p →
      (p.credibilityScore < 0 ∨ 100 < p.credibilityScore ∨
       p.confidence < 0 ∨ 100 < p.confidence ∨
       p.categories.factuality < 0 ∨ 100 < p.categories.factuality ∨
       p.categories.objectivity < 0 ∨ 100 < p.categories.objectivity) →
      rejectsRetryableInvalid (parseAnalysisResponse content)) ∧
    (∀ (content : String) (r : AnalysisResponse), parseAnalysisResponse content = .ok r →
      0 ≤ r.credibilityScore ∧ r.credibilityScore ≤ 100 ∧
      0 ≤ r.confidence ∧ r.confidence ≤ 100 ∧
      0 ≤ r.categories.factuality ∧ r.categories.factuality ≤ 100 ∧
      0 ≤ r.categories.objectivity ∧ r.categories.objectivity ≤ 100) := by
  constructor
  · intro content p hdec hbad
    simp only [parseAnalysisResponse, hdec]
    split_ifs <;> first | exact ⟨rfl, rfl, rfl⟩ | (exact absurd hbad (by omega))
  · intro content r h
    cases hdec : decodedAnalysis content with
    | none => simp [parseAnalysisResponse, hdec] at h
    | some p =>
      simp only [parseAnalysisResponse, hdec] at h
      split_ifs at h with h1 h2 h3 h4
      injection h with h
      subst h
      refine ⟨?_, ?_, ?_, ?_, ?_, ?_, ?_, ?_⟩ <;> simp <;> omega

/-- Witness for C5: an out-of-range `credibilityScore` of 150 is rejected,
and a fully in-range response is accepted with all four values in range. -/
theorem c5_witness :
    decodedAnalysis "\x7b\"credibilityScore\":150\x7d" =
      some ⟨zeroReasoning, 150, ⟨0, 0⟩, 0, none⟩ ∧
    rejectsRetryableInvalid
      (parseAnalysisResponse "\x7b\"credibilityScore\":150\x7d") ∧
    parseAnalysisResponse
        "\x7b\"credibilityScore\":85,\"confidence\":80,\"categories\":\x7b\"factuality\":90,\"objectivity\":70\x7d,\"reasoning\":\x7b\"factual\":[\"x\"]\x7d\x7d" =
      .ok ⟨⟨["x"], [], [], []⟩, 85, ⟨90, 70⟩, 80, some []⟩ ∧
    (0 : Int) ≤ 85 ∧ (85 : Int) ≤ 100 := by
  refine ⟨by decide, ?_, by decide, ?_, ?_⟩
  · exact c5_range_validation.1 "\x7b\"credibilityScore\":150\x7d"
      ⟨zeroReasoning, 150, ⟨0, 0⟩, 0, none⟩ (by decide) (by norm_num)
  · exact (c5_range_validation.2
      "\x7b\"credibilityScore\":85,\"confidence\":80,\"categories\":\x7b\"factuality\":90,\"objectivity\":70\x7d,\"reasoning\":\x7b\"factual\":[\"x\"]\x7d\x7d"
      ⟨⟨["x"], [], [], []⟩, 85, ⟨90, 70⟩, 80, some []⟩ (by decide)).1
  · exact (c5_range_validation.2
      "\x7b\"credibilityScore\":85,\"confidence\":80,\"categories\":\x7b\"factuality\":90,\"objectivity\":70\x7d,\"reasoning\":\x7b\"factual\":[\"x\"]\x7d\x7d"
      ⟨⟨["x"], [], [], []⟩, 85, ⟨90, 70⟩, 80, some []⟩ (by decide)).2.1

/-! ## C6: degeneracy rejection -/

/-- C6: a decoded article/long-text response whose four numeric fields are
all zero and whose four reasoning arrays are all empty is rejected by
`parseAnalysisResponse` as degenerate, with a retryable `InvalidContent`
error. -/
theorem c6_degenerate_rejection (content : String) (p : AnalysisResponse)
    (hdec : decodedAnalysis content = some p)
    (hcs : p.credibilityScore = 0) (hf : p.categories.factuality = 0)
    (ho : p.categories.objectivity = 0) (hc : p.confidence = 0)
    (hr1 : p.reasoning.factual = []) (hr2 : p.reasoning.unfactual = [])
    (hr3 : p.reasoning.subjective = []) (hr4 : p.reasoning.objective = []) :
    parseAnalysisResponse content =
      .error ⟨.invalidContent, "Invalid response format from analysis service", true,
        "Try analyzing the content again"⟩ := by
  simp [parseAnalysisResponse, hdec, hcs, hf, ho, hc, hr1, hr2, hr3, hr4]

/-- Witness for C6: the empty JSON object decodes to the all-zero response
and is rejected as degenerate. -/
theorem c6_witness :
    decodedAnalysis "\x7b\x7d" = some zeroAnalysisResponse ∧
    parseAnalysisResponse "\x7b\x7d" =
      .error ⟨.invalidContent, "Invalid response format from analysis service", true,
        "Try analyzing the content again"⟩ :=
  ⟨by decide,
    c6_degenerate_rejection "\x7b\x7d" zeroAnalysisResponse (by decide)
      rfl rfl rfl rfl rfl rfl rfl rfl⟩

/-! ## C7: short-variant exclusivity -/

/-- C7: a decoded short-text response with two or more of
`{fact, false, opinion}` populated is rejected by
`parseShortAnalysisResponse` with a retryable `InvalidContent` error, and
every accepted short result has at most one of these keys populated. -/
theorem c7_short_exclusivity :
    (∀ (content : String) (p : ShortAnalysisResponse), decodedShort content = some p →
      ((p.analysis.fact ≠ none ∧ p.analysis.falseKey ≠ none) ∨
       (p.analysis.fact ≠ none ∧ p.analysis.opinion ≠ none) ∨
       (p.analysis.falseKey ≠ none ∧ p.analysis.opinion ≠ none)) →
      rejectsRetryableInvalid (parseShortAnalysisResponse content)) ∧
    (∀ (content : String) (r : ShortAnalysisResponse),
      parseShortAnalysisResponse content = .ok r →
      ¬((r.analysis.fact ≠ none ∧ r.analysis.falseKey ≠ none) ∨
        (r.analysis.fact ≠ none ∧ r.analysis.opinion ≠ none) ∨
        (r.analysis.falseKey ≠ none ∧ r.analysis.opinion ≠ none))) := by
  constructor
  · intro content p hdec hbad
    simp only [parseShortAnalysisResponse, hdec]
    split_ifs with h1
    · exact ⟨rfl, rfl, rfl⟩
    · exact ⟨rfl, rfl, rfl⟩
  · intro content r h
    cases hdec : decodedShort content with
    | none => simp [parseShortAnalysisResponse, hdec] at h
    | some p =>
      simp only [parseShortAnalysisResponse, hdec] at h
      split_ifs at h with h1 h2
      injection h with h
      subst h
      simpa using h2

/-- Witness for C7: a response populating both `fact` and `false` is
rejected; a response populating only `fact` is accepted with the other two
keys absent. -/
theorem c7_witness :
    decodedShort "\x7b\"analysis\":\x7b\"fact\":[\"a\"],\"false\":[\"b\"]\x7d\x7d" =
      some ⟨⟨some ["a"], some ["b"], none⟩, 0, none⟩ ∧
    rejectsRetryableInvalid
      (parseShortAnalysisResponse
        "\x7b\"analysis\":\x7b\"fact\":[\"a\"],\"false\":[\"b\"]\x7d\x7d") ∧
    parseShortAnalysisResponse
        "\x7b\"analysis\":\x7b\"fact\":[\"a\"]\x7d,\"confidence\":90\x7d" =
      .ok ⟨⟨some ["a"], none, none⟩, 90, some []⟩ ∧
    ¬(((⟨⟨some ["a"], none, none⟩, 90, some []⟩ : ShortAnalysisResponse).analysis.fact ≠ none ∧
        (⟨⟨some ["a"], none, none⟩, 90, some []⟩ : ShortAnalysisResponse).analysis.falseKey ≠ none) ∨
      ((⟨⟨some ["a"], none, none⟩, 90, some []⟩ : ShortAnalysisResponse).analysis.fact ≠ none ∧
        (⟨⟨some ["a"], none, none⟩, 90, some []⟩ : ShortAnalysisResponse).analysis.opinion ≠ none) ∨
      ((⟨⟨some ["a"], none, none⟩, 90, some []⟩ : ShortAnalysisResponse).analysis.falseKey ≠ none ∧
        (⟨⟨some ["a"], none, none⟩, 90, some []⟩ : ShortAnalysisResponse).analysis.opinion ≠ none)) := by
  refine ⟨by decide, ?_, by decide, ?_⟩
  · exact c7_short_exclusivity.1
      "\x7b\"analysis\":\x7b\"fact\":[\"a\"],\"false\":[\"b\"]\x7d\x7d"
      ⟨⟨some ["a"], some ["b"], none⟩, 0, none⟩ (by decide)
      (Or.inl ⟨by decide, by decide⟩)
  · exact c7_short_exclusivity.2
      "\x7b\"analysis\":\x7b\"fact\":[\"a\"]\x7d,\"confidence\":90\x7d"
      ⟨⟨some ["a"], none, none⟩, 90, some []⟩ (by decide)

/-! ## C8: sources normalization (corrected)

The source drops only entries with `len(s) > 0` false, i.e. empty strings;
a whitespace-only entry such as `" "` has positive length and is kept, so
the claim's "no blank (whitespace-only) string" part fails. -/

/-- C8 counterexample: a whitespace-only sources entry survives
normalization — the accepted result contains the blank string `" "`
(whose trimmed form is empty), contradicting the claim that no blank
entry remains. -/
theorem c8_counterexample :
    parseAnalysisResponse "\x7b\"credibilityScore\":50,\"sources\":[\" \"]\x7d" =
      .ok ⟨zeroReasoning, 50, ⟨0, 0⟩, 0, some [" "]⟩ ∧
    trimSpace " ".data = [] := by
  exact ⟨by decide, by decide⟩

/-- C8 (amended): after normalization the sources list of an accepted
result never contains an *empty* string; a missing `sources` field becomes
the empty list; empty entries are dropped silently. (Whitespace-only
entries are kept.) Both parse functions behave alike. -/
theorem c8_sources_normalization :
    (∀ (content : String) (r : AnalysisResponse), parseAnalysisResponse content = .ok r →
      r.sources.isSome = true ∧ ∀ s ∈ r.sources.getD [], s ≠ "") ∧
    (∀ (content : String) (r : ShortAnalysisResponse),
      parseShortAnalysisResponse content = .ok r →
      r.sources.isSome = true ∧ ∀ s ∈ r.sources.getD [], s ≠ "") ∧
    (∀ (content : String) (p : AnalysisResponse), decodedAnalysis content = some p →
      p.sources = none →
      ∀ r, parseAnalysisResponse content = .ok r → r.sources = some []) ∧
    (∀ (content : String) (p : ShortAnalysisResponse), decodedShort content = some p →
      p.sources = none →
      ∀ r, parseShortAnalysisResponse content = .ok r → r.sources = some []) := by
  have hfilter : ∀ (l : List String), ∀ s ∈ filterSources l, s ≠ "" := by
    intro l s hs
    have := (List.mem_filter.mp hs).2
    exact string_ne_empty_of_length_pos (of_decide_eq_true this)
  refine ⟨?_, ?_, ?_, ?_⟩
  · intro content r h
    cases hdec : decodedAnalysis content with
    | none => simp [parseAnalysisResponse, hdec] at h
    | some p =>
      simp only [parseAnalysisResponse, hdec] at h
      split_ifs at h
      injection h with h
      subst h
      exact ⟨rfl, hfilter _⟩
  · intro content r h
    cases hdec : decodedShort content with
    | none => simp [parseShortAnalysisResponse, hdec] at h
    | some p =>
      simp only [parseShortAnalysisResponse, hdec] at h
      split_ifs at h
      injection h with h
      subst h
      exact ⟨rfl, hfilter _⟩
  · intro content p hdec hnone r h
    cases hdec' : decodedAnalysis content with
    | none => simp [parseAnalysisResponse, hdec'] at h
    | some q =>
      rw [hdec'] at hdec
      injection hdec with hdec
      subst hdec
      simp only [parseAnalysisResponse, hdec'] at h
      split_ifs at h
      injection h with h
      subst h
      simp [hnone, filterSources]
  · intro content p hdec hnone r h
    cases hdec' : decodedShort content with
    | none => simp [parseShortAnalysisResponse, hdec'] at h
    | some q =>
      rw [hdec'] at hdec
      injection hdec with hdec
      subst hdec
      simp only [parseShortAnalysisResponse, hdec'] at h
      split_ifs at h
      injection h with h
      subst h
      simp [hnone, filterSources]

/-- Witness for C8 (amended): a present sources list drops its empty entry
and keeps the rest; an absent field yields the empty list in both the long
and the short variant. -/
theorem c8_witness :
    parseAnalysisResponse
        "\x7b\"credibilityScore\":50,\"sources\":[\"a\",\"\"]\x7d" =
      .ok ⟨zeroReasoning, 50, ⟨0, 0⟩, 0, some ["a"]⟩ ∧
    (∀ s ∈ ((⟨zeroReasoning, 50, ⟨0, 0⟩, 0, some ["a"]⟩ :
        AnalysisResponse).sources.getD []), s ≠ "") ∧
    (⟨zeroReasoning, 50, ⟨0, 0⟩, 0, some ["a"]⟩ :
        AnalysisResponse).sources.isSome = true ∧
    decodedAnalysis "\x7b\"credibilityScore\":50\x7d" =
      some ⟨zeroReasoning, 50, ⟨0, 0⟩, 0, none⟩ ∧
    (parseAnalysisResponse "\x7b\"credibilityScore\":50\x7d" =
      .ok ⟨zeroReasoning, 50, ⟨0, 0⟩, 0, some []⟩) ∧
    ((⟨zeroReasoning, 50, ⟨0, 0⟩, 0, some []⟩ : AnalysisResponse).sources = some []) ∧
    parseShortAnalysisResponse "\x7b\"confidence\":5\x7d" =
      .ok ⟨⟨none, none, none⟩, 5, some []⟩ ∧
    ((⟨⟨none, none, none⟩, 5, some []⟩ : ShortAnalysisResponse).sources = some []) := by
  have h1 := c8_sources_normalization.1
    "\x7b\"credibilityScore\":50,\"sources\":[\"a\",\"\"]\x7d"
    ⟨zeroReasoning, 50, ⟨0, 0⟩, 0, some ["a"]⟩ (by decide)
  have h3 := c8_sources_normalization.2.2.1 "\x7b\"credibilityScore\":50\x7d"
    ⟨zeroReasoning, 50, ⟨0, 0⟩, 0, none⟩ (by decide) rfl
    ⟨zeroReasoning, 50, ⟨0, 0⟩, 0, some []⟩ (by decide)
  have h4 := c8_sources_normalization.2.2.2 "\x7b\"confidence\":5\x7d"
    ⟨⟨none, none, none⟩, 5, none⟩ (by decide) rfl
    ⟨⟨none, none, none⟩, 5, some []⟩ (by decide)
  exact ⟨by decide, h1.2, h1.1, by decide, by decide, h3, by decide, h4⟩

/-! ## C10: no degeneracy check in the short variant (corrected)

The all-absent, zero-confidence decoded short response is accepted, never
rejected; but the accepted result's sources are the normalized input
sources, which are empty only when the input's `sources` field is absent
(as in the claim's examples `\x7b\x7d` and `null`). -/

/-- C10 counterexample: an input with `{fact, false, opinion}` all absent
and confidence 0 but a non-empty `sources` array is accepted with those
sources, not with empty sources as the claim states. -/
theorem c10_counterexample :
    parseShortAnalysisResponse "\x7b\"confidence\":0,\"sources\":[\"a\"]\x7d" =
      .ok ⟨⟨none, none, none⟩, 0, some ["a"]⟩ ∧
    (some ["a"] : Option (List String)) ≠ some [] := by
  exact ⟨by decide, by decide⟩

/-- C10 (amended): `parseShortAnalysisResponse` applies no degeneracy
check — every decoded short response with all of `{fact, false, opinion}`
absent and confidence 0 is returned successfully, with every analysis key
absent, confidence 0 and the normalized input sources (the empty list when
the `sources` field is absent, as for the literals `\x7b\x7d` and
`null`) — never an `InvalidContent` error. -/
theorem c10_no_degeneracy_check (content : String) (p : ShortAnalysisResponse)
    (hdec : decodedShort content = some p)
    (hfact : p.analysis.fact = none) (hfalse : p.analysis.falseKey = none)
    (hopinion : p.analysis.opinion = none) (hconf : p.confidence = 0) :
    parseShortAnalysisResponse content =
      .ok ⟨⟨none, none, none⟩, 0, some (filterSources (p.sources.getD []))⟩ ∧
    (p.sources = none →
      parseShortAnalysisResponse content =
        .ok ⟨⟨none, none, none⟩, 0, some []⟩) := by
  obtain ⟨⟨f, fk, o⟩, conf, src⟩ := p
  simp only at hfact hfalse hopinion hconf
  subst hfact hfalse hopinion hconf
  constructor
  · simp [parseShortAnalysisResponse, hdec]
  · intro hnone
    simp only at hnone
    subst hnone
    simp [parseShortAnalysisResponse, hdec, filterSources]

/-- Witness for C10 (amended) at the claim's two example inputs. -/
theorem c10_witness :
    decodedShort "\x7b\x7d" = some zeroShortAnalysisResponse ∧
    parseShortAnalysisResponse "\x7b\x7d" = .ok ⟨⟨none, none, none⟩, 0, some []⟩ ∧
    decodedShort "null" = some zeroShortAnalysisResponse ∧
    parseShortAnalysisResponse "null" = .ok ⟨⟨none, none, none⟩, 0, some []⟩ :=
  ⟨by decide,
    (c10_no_degeneracy_check "\x7b\x7d" zeroShortAnalysisResponse (by decide)
      rfl rfl rfl rfl).2 rfl,
    by decide,
    (c10_no_degeneracy_check "null" zeroShortAnalysisResponse (by decide)
      rfl rfl rfl rfl).2 rfl⟩

/-! ## C2: JSON extraction (corrected)

The source extracts with the greedy pattern, not a balanced scan: the
match runs from the first opening brace to the last closing brace of the
whole response, so a closing brace inside trailing prose is captured. -/

/-- C2 counterexample: on prose containing a closing brace after the JSON
object, the source's extraction keeps everything through the trailing
brace, while a balanced outermost-brace scan isolates exactly the object. -/
theorem c2_counterexample :
    extractJsonObject "\x7b\"a\":1\x7d tail\x7d" = "\x7b\"a\":1\x7d tail\x7d" ∧
    specBalancedExtract "\x7b\"a\":1\x7d tail\x7d" = some "\x7b\"a\":1\x7d" ∧
    ("\x7b\"a\":1\x7d tail\x7d" : String) ≠ "\x7b\"a\":1\x7d" := by
  exact ⟨by decide, by decide, by decide⟩

/-- C2 (amended): the extraction trims whitespace and selects the substring
from the first opening brace to the *last* closing brace of the response
(greedy match). This never truncates at an inner closing brace, and it
selects exactly the JSON object whenever no closing brace occurs in the
trailing prose; a closing brace after the object is over-captured. -/
theorem c2_greedy_extraction (pre obj post : List Char)
    (hpre : ∀ c ∈ pre, c ≠ '{') (hpost : ∀ c ∈ post, c ≠ '}')
    (hhead : obj.head? = some '{') (hlast : obj.getLast? = some '}') :
    goJsonExtractCore (pre ++ obj ++ post) = obj := by
  cases obj with
  | nil => simp at hhead
  | cons b tl =>
    have hb : b = '{' := by simpa using hhead
    subst hb
    cases tl with
    | nil => simp at hlast
    | cons c tl' =>
      have hlast' : (c :: tl').getLast? = some '}' := by
        rw [List.getLast?_cons_cons] at hlast
        exact hlast
      have h1 : (pre ++ ('{' :: c :: tl') ++ post).dropWhile
            (fun x => decide (x ≠ '{')) = '{' :: (c :: tl' ++ post) := by
        rw [List.append_assoc,
          dropWhile_append_of_forall (fun a ha => by simpa using hpre a ha)]
        simp [List.dropWhile_cons]
      have h2 : ((c :: tl' ++ post).reverse.dropWhile
            (fun x => decide (x ≠ '}'))).reverse = c :: tl' := by
        rw [List.reverse_append,
          dropWhile_append_of_forall
            (fun a ha => by simpa using hpost a (by simpa using ha))]
        obtain ⟨r, hr⟩ : ∃ r, (c :: tl').reverse = '}' :: r := by
          have hh : (c :: tl').reverse.head? = some '}' := by
            rw [List.head?_reverse]
            exact hlast'
          cases hrev : (c :: tl').reverse with
          | nil => rw [hrev] at hh; exact absurd hh (by simp)
          | cons x xs =>
            rw [hrev] at hh
            simp only [List.head?_cons, Option.some.injEq] at hh
            exact ⟨xs, by rw [hh]⟩
        have hstay : List.dropWhile (fun x => decide (x ≠ '}')) ('}' :: r) = '}' :: r := by
          rw [List.dropWhile_cons]
          norm_num
        rw [hr, hstay, ← hr, List.reverse_reverse]
      simp only [goJsonExtractCore, h1, h2]
      simp

/-- Witness for C2 (amended): prose before, and brace-free prose after, a
nested JSON object; the extraction returns exactly the object, not a
truncation at the inner closing brace. -/
theorem c2_witness :
    goJsonExtractCore
        ("Sure: ".data ++ "\x7b\"a\":\x7b\"b\":1\x7d\x7d".data ++ " done.".data) =
      "\x7b\"a\":\x7b\"b\":1\x7d\x7d".data :=
  c2_greedy_extraction "Sure: ".data "\x7b\"a\":\x7b\"b\":1\x7d\x7d".data
    " done.".data (by decide) (by decide) (by decide) (by decide)

/-! ## C1: where input validation lives (corrected)

The Go entry points perform no content-length validation: under the
Pollinations model they issue exactly one provider HTTP round trip for
every content, including the empty string, and surface whatever that round
trip produces. Only the TypeScript reference client's `analyzeText`
rejects blank and too-short content with a non-retryable `InvalidContent`
error before any network call. -/

/-- C1 counterexample: with empty content, `AiAnalyzeArticle` issues one
provider call (count 1, not 0) and returns the provider's classified
rate-limit error — not an immediate non-retryable `InvalidContent`. -/
theorem c1_counterexample :
    AiAnalyzeArticle "" "" "" 0 Pollinations "" (.success none)
        (.response 429 (.json [])) =
      (.error (.ext ⟨.rateLimited, "API rate limit exceeded", true,
        "Please wait a moment before trying again"⟩), 1) := by
  decide

/-- C1 (amended): the three Go entry points always perform exactly one
provider round trip under the Pollinations model, regardless of content;
the TypeScript `analyzeText` rejects blank content, and sanitized content
shorter than 50 characters, with the non-retryable `InvalidContent` errors
of the source, issuing no network call in either case. -/
theorem c1_validation_location :
    (∀ (content title url : String) (le : Int) (geminiKey : String)
        (gOut : GeminiOutcome) (pOut : HttpOutcome),
      (AiAnalyzeArticle content title url le Pollinations geminiKey gOut pOut).2 = 1) ∧
    (∀ (content geminiKey : String) (gOut : GeminiOutcome) (pOut : HttpOutcome),
      (AiAnalyzeTextLong content Pollinations geminiKey gOut pOut).2 = 1) ∧
    (∀ (content geminiKey : String) (gOut : GeminiOutcome) (pOut : HttpOutcome),
      (AiAnalyzeTextShort content Pollinations geminiKey gOut pOut).2 = 1) ∧
    (∀ (α : Type) (text : String) (sanitize : String → String)
        (truncate : String → Nat → String)
        (rest : String → Except ExtensionError α × Nat),
      (trimSpace text.data).isEmpty = true →
      analyzeText text sanitize truncate rest =
        (.error ⟨.invalidContent, "Text content cannot be empty", false,
          "Please provide valid content to analyze"⟩, 0)) ∧
    (∀ (α : Type) (text : String) (sanitize : String → String)
        (truncate : String → Nat → String)
        (rest : String → Except ExtensionError α × Nat),
      (trimSpace text.data).isEmpty = false → (sanitize text).length < 50 →
      analyzeText text sanitize truncate rest =
        (.error ⟨.invalidContent, "Text content is too short for analysis", false,
          "Please provide at least 50 characters of content"⟩, 0)) := by
  refine ⟨?_, ?_, ?_, ?_, ?_⟩
  · intro content title url le geminiKey gOut pOut
    simp [AiAnalyzeArticle, Pollinations, Gemini]
  · intro content geminiKey gOut pOut
    simp [AiAnalyzeTextLong, Pollinations, Gemini]
  · intro content geminiKey gOut pOut
    simp [AiAnalyzeTextShort, Pollinations, Gemini]
  · intro α text sanitize truncate rest h
    simp [analyzeText, h]
  · intro α text sanitize truncate rest h hlen
    simp [analyzeText, h, hlen]

/-- Witness for C1 (amended): empty content still produces one provider
call in each Go entry point; blank and 2-character inputs are rejected by
the TypeScript validation with zero network calls. -/
theorem c1_witness :
    (AiAnalyzeArticle "" "t" "u" 0 Pollinations "" (.success none)
      (.transportError "x")).2 = 1 ∧
    (AiAnalyzeTextLong "" Pollinations "" (.success none)
      (.transportError "x")).2 = 1 ∧
    (AiAnalyzeTextShort "" Pollinations "" (.success none)
      (.transportError "x")).2 = 1 ∧
    analyzeText " " (fun s => s) (fun s _ => s)
        (fun _ => ((Except.ok 0 : Except ExtensionError Nat), 1)) =
      (.error ⟨.invalidContent, "Text content cannot be empty", false,
        "Please provide valid content to analyze"⟩, 0) ∧
    analyzeText "ab" (fun s => s) (fun s _ => s)
        (fun _ => ((Except.ok 0 : Except ExtensionError Nat), 1)) =
      (.error ⟨.invalidContent, "Text content is too short for analysis", false,
        "Please provide at least 50 characters of content"⟩, 0) :=
  ⟨c1_validation_location.1 "" "t" "u" 0 "" (.success none) (.transportError "x"),
    c1_validation_location.2.1 "" "" (.success none) (.transportError "x"),
    c1_validation_location.2.2.1 "" "" (.success none) (.transportError "x"),
    c1_validation_location.2.2.2.1 Nat " " (fun s => s) (fun s _ => s)
      (fun _ => (.ok 0, 1)) (by decide),
    c1_validation_location.2.2.2.2 Nat "ab" (fun s => s) (fun s _ => s)
      (fun _ => (.ok 0, 1)) (by decide) (by decide)⟩

/-! ## C3: provider error wrapping (corrected)

The Gemini path wraps every failure in an `ExtensionError`, and the
Pollinations path classifies non-2xx HTTP statuses; but Pollinations
transport failures and malformed response bodies escape as raw error
values. -/

/-- C3 counterexample: a transport failure in the Pollinations path is
returned raw — not as an `ExtensionError`. -/
theorem c3_counterexample :
    pollinationsApiCall "sys" "user" (.transportError "connection refused") =
      .error (.raw "connection refused") := rfl

/-- C3 (amended): every failure of the Gemini path is a classified
`ExtensionError`; on the Pollinations path every non-2xx HTTP status is
classified through `handleHttpStatusError`, while transport failures and
malformed 2xx bodies escape as raw error values. -/
theorem c3_error_wrapping :
    (∀ (apiKey prompt : String) (out : GeminiOutcome) (e : GoError),
      geminiApiCall apiKey prompt out = .error e → ∃ x, e = GoError.ext x) ∧
    (∀ (sys user : String) (status : Int) (body : BodyContent),
      (status < 200 ∨ 300 ≤ status) →
      pollinationsApiCall sys user (.response status body) =
        .error (.ext (handleHttpStatusError status
          ("POST request failed with status " ++ toString status)))) ∧
    (∀ (sys user m : String),
      pollinationsApiCall sys user (.transportError m) = .error (.raw m)) ∧
    (∀ (sys user : String) (status : Int) (m : String),
      200 ≤ status → status < 300 →
      pollinationsApiCall sys user (.response status (.malformed m)) =
        .error (.raw m)) := by
  refine ⟨?_, ?_, ?_, ?_⟩
  · intro apiKey prompt out e h
    by_cases hk : apiKey.length = 0
    · simp only [geminiApiCall, if_pos hk] at h
      injection h with h'
      exact ⟨_, h'.symm⟩
    · simp only [geminiApiCall, if_neg hk] at h
      cases out with
      | clientInitError m => injection h with h'; exact ⟨_, h'.symm⟩
      | requestError m => injection h with h'; exact ⟨_, h'.symm⟩
      | success t => exact absurd h (by simp)
  · intro sys user status body h
    simp only [pollinationsApiCall, if_pos h]
  · intro sys user m
    rfl
  · intro sys user status m h1 h2
    simp only [pollinationsApiCall,
      if_neg (by omega : ¬(status < 200 ∨ 300 ≤ status))]

/-- Witness for C3 (amended) at concrete statuses and failure modes. -/
theorem c3_witness :
    pollinationsApiCall "s" "u" (.response 404 (.json [])) =
      .error (.ext (handleHttpStatusError 404
        ("POST request failed with status " ++ toString (404 : Int)))) ∧
    pollinationsApiCall "s" "u" (.transportError "x") = .error (.raw "x") ∧
    pollinationsApiCall "s" "u" (.response 200 (.malformed "bad json")) =
      .error (.raw "bad json") :=
  ⟨c3_error_wrapping.2.1 "s" "u" 404 (.json []) (Or.inr (by norm_num)),
    c3_error_wrapping.2.2.1 "s" "u" "x",
    c3_error_wrapping.2.2.2 "s" "u" 200 "bad json" (by norm_num) (by norm_num)⟩

/-! ## C9: content hash determinism (corrected)

`createAnalysisResult` hashes `(content, url || "unknown")`: the hash is a
deterministic function of content and the *resolved* url, but an absent or
empty url aliases with the literal url `"unknown"`, so "changing the url
changes the hash" fails for that pair. -/

lemma char_toNat_injective : Function.Injective Char.toNat := by
  intro a b h
  have := congrArg Char.ofNat h
  rwa [Char.ofNat_toNat, Char.ofNat_toNat] at this

lemma encodeString_injective : Function.Injective encodeString := by
  intro s t h
  simp only [encodeString] at h
  have h2 := Encodable.encode_injective h
  have h3 : s.data = t.data := List.map_injective_iff.mpr char_toNat_injective h2
  cases s
  cases t
  exact congrArg String.mk h3

/-- C9 counterexample: two calls with the same content but different urls
(`""` versus `"unknown"`) stamp the same hash, because the source defaults
a falsy url to `"unknown"` before hashing. -/
theorem c9_counterexample :
    stampedContentHash "abc" (some "") = stampedContentHash "abc" (some "unknown") ∧
    ("" : String) ≠ "unknown" := by
  exact ⟨rfl, by decide⟩

/-- C9 (amended): the stamped hash is a deterministic function of
`(content, url || "unknown")`: equal content and equal resolved urls give
equal hashes, and conversely equal hashes force equal content and equal
resolved urls (so any change to the content, or any change to the url
visible after the `"unknown"` defaulting, changes the hash). -/
theorem c9_hash_determinism :
    (∀ (content : String) (u u' : Option String), resolveUrl u = resolveUrl u' →
      stampedContentHash content u = stampedContentHash content u') ∧
    (∀ (c c' : String) (u u' : Option String),
      stampedContentHash c u = stampedContentHash c' u' →
      c = c' ∧ resolveUrl u = resolveUrl u') := by
  constructor
  · intro content u u' h
    simp [stampedContentHash, h]
  · intro c c' u u' h
    simp only [stampedContentHash, generateContentHash] at h
    rw [Nat.pair_eq_pair] at h
    exact ⟨encodeString_injective h.1, encodeString_injective h.2⟩

/-- Witness for C9 (amended): the aliasing pair hashes equally, and equal
hashes at concrete inputs force equal content. -/
theorem c9_witness :
    stampedContentHash "abc" (some "") = stampedContentHash "abc" (some "unknown") ∧
    ("abc" : String) = "abc" :=
  ⟨c9_hash_determinism.1 "abc" (some "") (some "unknown") (by decide),
    (c9_hash_determinism.2 "abc" "abc" (some "u") (some "u") rfl).1⟩

end FalseFactServer
